import Mathlib

set_option autoImplicit false

/-!
Shallow embedding of the two driver scripts of the repository:
`src/train_cond.py` (training loop driver) and `src/sample/sample_cond.py`
(sampling driver).  Tensors are modelled elementwise as lists of rationals,
Python `dict`s of named parameters as association lists, and the branching
logic of the drivers as Lean functions over those models.
-/

namespace EndosCond

/-! ## Sampling driver: classifier-free guidance setup (sample_cond.py) -/

/-- The two forward functions a sampler loop can receive:
`model.forward_with_cfg` (guidance mixer path) or plain `model.forward`. -/
inductive SampleFn where
  | forwardWithCfg
  | forward
  deriving DecidableEq, Repr

/-- `using_cfg = args.cfg_scale > 1.0` (sample_cond.py line 93). -/
def using_cfg (cfg_scale : ℚ) : Bool := decide (1 < cfg_scale)

/-- The null class label `y_null = torch.tensor([101] * 1)` used on the
unconditional half of the doubled batch (sample_cond.py line 159). -/
def null_label : ℤ := 101

/-- The inputs handed to the sampler loop: which forward function, the latent
batch (possibly doubled), and the label batch (`None` without guidance). -/
structure GuidanceSetup where
  sampleFn : SampleFn
  z : List ℚ
  y : Option (List ℤ)
  deriving DecidableEq, Repr

/-- sample_cond.py lines 155-166: when `using_cfg` the latent batch is doubled by
concatenating the mask latent, the label batch is the drawn class label followed
by the null label, and `model.forward_with_cfg` becomes the sample function;
otherwise the batch and labels are untouched (`y = None`) and plain
`model.forward` is the sample function. -/
def setup_guidance (cfg_scale : ℚ) (z c : List ℚ) (drawn_label : ℤ) :
    GuidanceSetup :=
  if using_cfg cfg_scale then
    { sampleFn := SampleFn.forwardWithCfg
      z := z ++ c
      y := some [drawn_label, null_label] }
  else
    { sampleFn := SampleFn.forward, z := z, y := none }

/-! ## Training driver: loss assembly (train_cond.py lines 276-283) -/

/-- Mean of a tensor, modelled elementwise: `loss_dict["loss"].mean()`. -/
def listMean (l : List ℚ) : ℚ := l.sum / l.length

/-- train_cond.py lines 277-282: `loss_mse = loss_dict["loss"].mean()`,
`loss_prr = loss_dict["prr"]`, then
`loss = loss_mse + prr_weight * loss_prr` when `loss_prr != -1`,
else `loss = loss_mse`. -/
def totalLoss (loss_vals : List ℚ) (loss_prr prr_weight : ℚ) : ℚ :=
  let loss_mse := listMean loss_vals
  if loss_prr ≠ -1 then loss_mse + prr_weight * loss_prr else loss_mse

/-! ## Sampling driver: checkpoint-path guard (sample_cond.py) -/

/-- The argparse default for `--ckpt` (sample_cond.py line 205): the empty
string, not `None`. -/
def ckpt_cli_default : String := ""

/-- `args.ckpt` then `omega_conf.ckpt = args.ckpt` (sample_cond.py lines
205-209): argparse always produces a string — the value supplied on the
command line, or the default — so the config field is never `None`. -/
def resolved_ckpt (cli : Option String) : Option String :=
  some (cli.getD ckpt_cli_default)

/-- The missing-checkpoint guard `if args.ckpt is None` (sample_cond.py lines
89-91), which prints and exits with status -1 when it fires. -/
def ckpt_guard_fires (ckpt : Option String) : Bool := ckpt.isNone

/-! ## Latent scaling around the VAE (both drivers) -/

/-- The fixed latent scaling constant `0.18215`. -/
def latentScale : ℚ := 18215 / 100000

/-- `.mul_(0.18215)` applied directly to the output of
`vae.encode(...).latent_dist.sample()` (train_cond.py lines 256 and 261,
sample_cond.py line 151), modelled elementwise. -/
def scale_after_encode (latent : List ℚ) : List ℚ :=
  latent.map (fun v => v * latentScale)

/-- `samples / 0.18215` computed before the tensor is handed to `vae.decode`
(sample_cond.py line 183), modelled elementwise. -/
def unscale_before_decode (latent : List ℚ) : List ℚ :=
  latent.map (fun v => v / latentScale)

/-- train_cond.py line 256: the latent for the training video is the VAE
encoder sample followed immediately by the scaling. -/
def train_video_latent (encSample : List ℚ → List ℚ) (x : List ℚ) : List ℚ :=
  scale_after_encode (encSample x)

/-- train_cond.py line 261: the latent for the conditioning mask video in
training, likewise scaled immediately after encode. -/
def train_mask_latent (encSample : List ℚ → List ℚ) (c : List ℚ) : List ℚ :=
  scale_after_encode (encSample c)

/-- sample_cond.py line 151: the latent for the conditioning mask video at
sampling time, likewise scaled immediately after encode. -/
def sample_mask_latent (encSample : List ℚ → List ℚ) (c : List ℚ) : List ℚ :=
  scale_after_encode (encSample c)

/-- sample_cond.py line 183: the VAE decoder is applied to the samples divided
by the scaling constant. -/
def decode_samples (dec : List ℚ → List ℚ) (samples : List ℚ) : List ℚ :=
  dec (unscale_before_decode samples)

/-! ## Training driver: timestep sampling (train_cond.py line 275) -/

/-- One draw of `torch.randint(0, T, ...)`, modelled as a reduction of one
value from the entropy source into the range `[0, T)`. -/
def randint_draw (T r : ℕ) : ℕ := r % T

/-- `t = torch.randint(0, diffusion.num_timesteps, (x.shape[0],))`
(train_cond.py line 275): the timestep tensor has shape `(batch,)`, one
independent draw per batch element. -/
def step_timesteps (T batch : ℕ) (entropy : ℕ → ℕ) : List ℕ :=
  (List.range batch).map (fun i => randint_draw T (entropy i))

/-- A call to `diffusion.training_losses` (the forward-process corruption is
performed inside it), recording the timestep tensor it receives. -/
structure TrainingLossCall where
  timesteps : List ℕ
  deriving DecidableEq, Repr

/-- train_cond.py lines 275-276: the training-loss calls made by one loop
body — exactly the single call `diffusion.training_losses(model, x, t, ...)`
with the freshly drawn timestep tensor. -/
def train_step_loss_calls (T batch : ℕ) (entropy : ℕ → ℕ) :
    List TrainingLossCall :=
  [⟨step_timesteps T batch entropy⟩]

/-! ## Training driver: resume counters (train_cond.py lines 216-224) -/

/-- Python truthiness of the `args.resume_from_checkpoint` config field:
false for `None` and for the empty string, true for any other string. -/
def resume_truthy (resume_from_checkpoint : Option String) : Bool :=
  match resume_from_checkpoint with
  | none => false
  | some s => !s.isEmpty

/-- train_cond.py lines 204-224: the pair `(train_steps, first_epoch)` after
the optional resume block.  The loaded checkpoint states are used only for the
weights (`model.module.load_state_dict(states['ema'])`) and then deleted; the
counters come from the constant 20000. -/
def resume_counters (resume_from_checkpoint : Option String)
    (ckpt_states : List (String × ℚ)) (num_update_steps_per_epoch : ℕ) :
    ℕ × ℕ :=
  if resume_truthy resume_from_checkpoint then
    (20000, 20000 / num_update_steps_per_epoch)
  else
    (0, 0)

/-! ## Training driver: pretrained checkpoint load (train_cond.py lines 115-134)

State dicts are modelled as association lists from parameter name to value,
matching Python dict iteration order and key lookup. -/

/-- Python dict key lookup on an association list. -/
def slookup (k : String) : List (String × ℚ) → Option ℚ
  | [] => none
  | kv :: rest => if kv.1 = k then some kv.2 else slookup k rest

/-- train_cond.py lines 123-126: `pretrained_dict`, the checkpoint entries
whose key occurs in the live model's state dict. -/
def pretrained_dict (ckpt model_dict : List (String × ℚ)) :
    List (String × ℚ) :=
  ckpt.filter (fun kv => (slookup kv.1 model_dict).isSome)

/-- train_cond.py lines 127-128: the checkpoint keys logged with
`Ignoring: {k}` — exactly those absent from the model's state dict. -/
def ignored_keys (ckpt model_dict : List (String × ℚ)) : List String :=
  (ckpt.filter (fun kv => !(slookup kv.1 model_dict).isSome)).map Prod.fst

/-- Python `dict.update` (train_cond.py line 132): entries whose key already
exists are overwritten in place, remaining entries of the update are appended. -/
def dict_update (base upd : List (String × ℚ)) : List (String × ℚ) :=
  base.map (fun kv =>
    match slookup kv.1 upd with
    | some v => (kv.1, v)
    | none => kv) ++
  upd.filter (fun kv => !(slookup kv.1 base).isSome)

/-- Strict `model.load_state_dict` (train_cond.py line 133): raises when the
given state dict's key set differs from the model's, succeeds otherwise. -/
def load_state_dict (model_dict sd : List (String × ℚ)) :
    Except String (List (String × ℚ)) :=
  if sd.all (fun kv => (slookup kv.1 model_dict).isSome) &&
      model_dict.all (fun kv => (slookup kv.1 sd).isSome) then
    Except.ok sd
  else
    Except.error "Error(s) in loading state_dict"

/-- train_cond.py lines 121-133: the whole pretrained-checkpoint load — filter
the checkpoint down to the model's keys, overwrite the model's state dict with
the surviving entries, and load the result strictly. -/
def load_pretrained (ckpt model_dict : List (String × ℚ)) :
    Except String (List (String × ℚ)) :=
  load_state_dict model_dict
    (dict_update model_dict (pretrained_dict ckpt model_dict))

theorem slookup_isSome_of_mem {k : String} {v : ℚ} {l : List (String × ℚ)}
    (h : (k, v) ∈ l) : (slookup k l).isSome = true := by
  induction l with
  | nil => cases h
  | cons kv rest ih =>
    rcases List.mem_cons.mp h with h1 | h1
    · simp [slookup, ← h1]
    · by_cases hk : kv.1 = k
      · simp [slookup, hk]
      · simp [slookup, hk, ih h1]

theorem slookup_append (k : String) (a b : List (String × ℚ)) :
    slookup k (a ++ b) =
      match slookup k a with
      | some v => some v
      | none => slookup k b := by
  induction a with
  | nil => simp [slookup]
  | cons kv rest ih =>
    by_cases hk : kv.1 = k <;> simp [slookup, hk, ih]

theorem slookup_filter_key (q : String → Bool) (k : String)
    (l : List (String × ℚ)) :
    slookup k (l.filter (fun kv => q kv.1)) =
      if q k then slookup k l else none := by
  induction l with
  | nil => simp [slookup]
  | cons kv rest ih =>
    rcases kv with ⟨k2, v2⟩
    by_cases hk : k2 = k
    · subst hk
      by_cases hq : q k2 <;> simp [List.filter_cons, hq, slookup, ih]
    · by_cases hq2 : q k2 <;> simp [List.filter_cons, hq2, slookup, hk, ih]

theorem slookup_map_overwrite (upd base : List (String × ℚ)) (k : String) :
    slookup k (base.map (fun kv =>
      match slookup kv.1 upd with
      | some v => (kv.1, v)
      | none => kv)) =
      match slookup k base with
      | some v => some ((slookup k upd).getD v)
      | none => none := by
  induction base with
  | nil => simp [slookup]
  | cons kv rest ih =>
    rcases kv with ⟨k2, v2⟩
    by_cases hk : k2 = k
    · subst hk
      cases h : slookup k2 upd <;> simp [slookup, h, ih]
    · cases h : slookup k2 upd <;> simp [slookup, h, hk, ih]

theorem dict_update_slookup (base upd : List (String × ℚ)) (k : String) :
    slookup k (dict_update base upd) =
      match slookup k base with
      | some v => some ((slookup k upd).getD v)
      | none => slookup k upd := by
  unfold dict_update
  rw [slookup_append, slookup_map_overwrite]
  cases hb : slookup k base with
  | none =>
    simp only [hb]
    have hf := slookup_filter_key (fun k2 => !(slookup k2 base).isSome) k upd
    simp only [hb, Option.isSome_none, Bool.not_false, if_true] at hf
    exact hf
  | some v =>
    simp [hb]

theorem pretrained_dict_slookup (ckpt md : List (String × ℚ)) (k : String) :
    slookup k (pretrained_dict ckpt md) =
      if (slookup k md).isSome then slookup k ckpt else none :=
  slookup_filter_key (fun k2 => (slookup k2 md).isSome) k ckpt

/-! ## Training driver: checkpoint writes (train_cond.py lines 317-327) -/

/-- Externally visible actions of the checkpointing block. -/
inductive DistAction where
  | save_checkpoint (keys : List String)
  | barrier
  deriving DecidableEq, Repr

/-- train_cond.py lines 317-327: the actions one loop body performs for
checkpointing.  When `train_steps % ckpt_every == 0 and train_steps > 0`,
rank 0 builds and saves the dict `{"ema": ema.state_dict()}` and then every
rank reaches `dist.barrier()`; otherwise the block does nothing. -/
def ckpt_step_actions (rank train_steps ckpt_every : ℕ) : List DistAction :=
  if train_steps % ckpt_every = 0 ∧ 0 < train_steps then
    (if rank = 0 then [DistAction.save_checkpoint ["ema"]] else []) ++
      [DistAction.barrier]
  else
    []

/-! ## Sampling driver: sampler dispatch (sample_cond.py lines 170-185) -/

/-- The two sampler loops of the diffusion object. -/
inductive SamplerVariant where
  | ddim_sample_loop
  | p_sample_loop
  deriving DecidableEq, Repr

/-- One invocation of a sampler loop with the flags the driver passes. -/
structure SamplerCall where
  variant : SamplerVariant
  clip_denoised : Bool
  progress : Bool
  deriving DecidableEq, Repr

/-- sample_cond.py lines 170-178: the `if/elif` dispatch on
`args.sample_method`.  Only the exact strings "ddim" and "ddpm" assign
`samples`; any other value falls through, invoking no sampler loop. -/
def sample_dispatch (sample_method : String) : Option SamplerCall :=
  if sample_method = "ddim" then
    some { variant := SamplerVariant.ddim_sample_loop
           clip_denoised := false
           progress := true }
  else if sample_method = "ddpm" then
    some { variant := SamplerVariant.p_sample_loop
           clip_denoised := false
           progress := true }
  else
    none

/-- sample_cond.py line 180: the first use of `samples` after the dispatch
(`print(samples.shape)`).  When no branch assigned the variable, Python raises
`UnboundLocalError` there, so the run fails before producing any output. -/
def run_sampling (sample_method : String) : Except String SamplerCall :=
  match sample_dispatch sample_method with
  | some call => Except.ok call
  | none =>
    Except.error "UnboundLocalError: local variable referenced before assignment"

/-! ## Theorems for claims C1-C4 -/

/-- C1: in the sampling driver, classifier-free guidance is enabled iff
`cfg_scale > 1.0`; for every run with `cfg_scale ≤ 1.0` the guidance mixer
path (`forward_with_cfg` with a doubled batch and a null label) is bypassed
entirely and the plain conditional forward function is passed to the sampler
loop instead. -/
theorem cfg_enabled_iff_scale_gt_one (cfg_scale : ℚ) (z c : List ℚ) (lab : ℤ) :
    (using_cfg cfg_scale = true ↔ 1 < cfg_scale) ∧
    (cfg_scale ≤ 1 →
      setup_guidance cfg_scale z c lab =
        { sampleFn := SampleFn.forward, z := z, y := none }) := by
  constructor
  · simp [using_cfg]
  · intro h
    simp [setup_guidance, using_cfg, not_lt.mpr h]

/-- Witness for C1 at the concrete guidance scale 1/2. -/
theorem cfg_enabled_iff_scale_gt_one_witness :
    setup_guidance (1 / 2) [0] [1] 3 =
      { sampleFn := SampleFn.forward, z := [0], y := none } :=
  (cfg_enabled_iff_scale_gt_one (1 / 2) [0] [1] 3).2 (by norm_num)

/-- C2: the total loss backpropagated each step equals the base diffusion loss
(mean of `loss_dict["loss"]`) plus `prr_weight` times `loss_dict["prr"]` when
the latter is not the sentinel -1, and equals the base diffusion loss alone
when it equals the sentinel -1. -/
theorem total_loss_assembly (loss_vals : List ℚ) (loss_prr prr_weight : ℚ) :
    (loss_prr ≠ -1 →
      totalLoss loss_vals loss_prr prr_weight =
        listMean loss_vals + prr_weight * loss_prr) ∧
    (loss_prr = -1 →
      totalLoss loss_vals loss_prr prr_weight = listMean loss_vals) := by
  constructor
  · intro h; simp [totalLoss, h]
  · intro h; simp [totalLoss, h]

/-- Witness for C2 at concrete losses: prr term 2 with weight 1/10. -/
theorem total_loss_assembly_witness :
    totalLoss [1, 3] 2 (1 / 10) = listMean [1, 3] + (1 / 10) * 2 :=
  (total_loss_assembly [1, 3] 2 (1 / 10)).1 (by norm_num)

/-- C3 (code bug): the guard `if args.ckpt is None` does fire on `None`, but an
invocation with no checkpoint path supplied resolves the config field to the
CLI default, the empty string — which is not `None` — so the missing-path
check never fires for the CLI default and execution proceeds towards model
construction and `torch.load("")`. -/
theorem ckpt_guard_dead_for_cli_default :
    ckpt_guard_fires none = true ∧
      ckpt_guard_fires (resolved_ckpt none) = false := by
  constructor <;> rfl

/-- C4: every latent produced by VAE encoding (training video, training mask,
sampling mask) is multiplied by 0.18215 immediately after encode, every latent
handed to VAE decode is first divided by 0.18215, and the two scalings compose
to the identity. -/
theorem latent_scaling_roundtrip (enc dec : List ℚ → List ℚ) (l : List ℚ) :
    train_video_latent enc l = (enc l).map (fun v => v * latentScale) ∧
    train_mask_latent enc l = (enc l).map (fun v => v * latentScale) ∧
    sample_mask_latent enc l = (enc l).map (fun v => v * latentScale) ∧
    decode_samples dec l = dec (l.map (fun v => v / latentScale)) ∧
    unscale_before_decode (scale_after_encode l) = l := by
  refine ⟨rfl, rfl, rfl, rfl, ?_⟩
  have hs : latentScale ≠ 0 := by norm_num [latentScale]
  simp only [scale_after_encode, unscale_before_decode, List.map_map]
  have hid : ((fun v => v / latentScale) ∘ fun v : ℚ => v * latentScale) = id := by
    funext v
    simp [Function.comp, mul_div_assoc, div_self hs]
  rw [hid, List.map_id]

/-- C5: at every training step one timestep index is drawn per batch element
(the tensor has length `batch`), each drawn value lies in `[0, T)`, the draw
is uniform (every value of `[0, T)` arises from exactly one entropy residue in
a full period), and the training-loss call — through which the forward-process
corruption runs — is made exactly once with those timesteps. -/
theorem timestep_sampling_per_step (T batch : ℕ) (entropy : ℕ → ℕ)
    (hT : 0 < T) :
    (step_timesteps T batch entropy).length = batch ∧
    (∀ t ∈ step_timesteps T batch entropy, t < T) ∧
    (∀ k < T,
      ((Finset.range T).filter (fun r => randint_draw T r = k)).card = 1) ∧
    (train_step_loss_calls T batch entropy).length = 1 ∧
    (∀ call ∈ train_step_loss_calls T batch entropy,
      call.timesteps = step_timesteps T batch entropy) := by
  refine ⟨by simp [step_timesteps], ?_, ?_, rfl, ?_⟩
  · intro t ht
    simp only [step_timesteps, List.mem_map] at ht
    obtain ⟨i, _, rfl⟩ := ht
    exact Nat.mod_lt _ hT
  · intro k hk
    have hset : ((Finset.range T).filter (fun r => randint_draw T r = k)) = {k} := by
      ext r
      simp only [Finset.mem_filter, Finset.mem_range, Finset.mem_singleton,
        randint_draw]
      constructor
      · rintro ⟨hr, hmod⟩
        rw [Nat.mod_eq_of_lt hr] at hmod
        exact hmod
      · rintro rfl
        exact ⟨hk, Nat.mod_eq_of_lt hk⟩
    rw [hset, Finset.card_singleton]
  · intro call hcall
    simp only [train_step_loss_calls, List.mem_singleton] at hcall
    rw [hcall]

/-- Witness for C5 at `T = 4`, batch 3, identity entropy source. -/
theorem timestep_sampling_per_step_witness :
    (step_timesteps 4 3 id).length = 3 ∧
    (∀ t ∈ step_timesteps 4 3 id, t < 4) ∧
    (∀ k < 4,
      ((Finset.range 4).filter (fun r => randint_draw 4 r = k)).card = 1) ∧
    (train_step_loss_calls 4 3 id).length = 1 ∧
    (∀ call ∈ train_step_loss_calls 4 3 id,
      call.timesteps = step_timesteps 4 3 id) :=
  timestep_sampling_per_step 4 3 id (by decide)

/-- C7: whenever training resumes from a checkpoint, `train_steps` is set to
the constant 20000 regardless of the checkpoint contents, and the starting
epoch is `20000` integer-divided by the number of update steps per epoch. -/
theorem resume_hardcodes_20000 (resume : Option String)
    (states other_states : List (String × ℚ)) (n : ℕ)
    (h : resume_truthy resume = true) :
    resume_counters resume states n = (20000, 20000 / n) ∧
    resume_counters resume states n = resume_counters resume other_states n := by
  constructor
  · simp [resume_counters, h]
  · rfl

/-- Witness for C7: resuming from a concrete path with a nonsense checkpoint
still yields step 20000 and epoch 20000 / 7 = 2857. -/
theorem resume_hardcodes_20000_witness :
    resume_counters (some "ckpt.pt") [("w", 5)] 7 = (20000, 2857) :=
  (resume_hardcodes_20000 (some "ckpt.pt") [("w", 5)] [] 7 rfl).1

/-- C9: every sampler loop the driver invokes — whichever of the two variants
the dispatch selects — is called with `clip_denoised` set to false. -/
theorem clip_denoised_always_false (sample_method : String)
    (call : SamplerCall) (h : sample_dispatch sample_method = some call) :
    call.clip_denoised = false := by
  by_cases h1 : sample_method = "ddim"
  · simp [sample_dispatch, h1] at h
    rw [← h]
  · by_cases h2 : sample_method = "ddpm"
    · simp [sample_dispatch, h1, h2] at h
      rw [← h]
    · simp [sample_dispatch, h1, h2] at h

/-- Witness for C9 at the concrete method "ddim". -/
theorem clip_denoised_always_false_witness :
    ({ variant := SamplerVariant.ddim_sample_loop
       clip_denoised := false
       progress := true } : SamplerCall).clip_denoised = false :=
  clip_denoised_always_false "ddim" _ rfl

/-- C10: for every `sample_method` other than exactly "ddim" or "ddpm", the
dispatch selects no sampler loop, and the first subsequent use of the samples
variable raises, so the run fails before producing output. -/
theorem unknown_sample_method_fails (sample_method : String)
    (h1 : sample_method ≠ "ddim") (h2 : sample_method ≠ "ddpm") :
    sample_dispatch sample_method = none ∧
    ∃ e, run_sampling sample_method = Except.error e := by
  have hd : sample_dispatch sample_method = none := by
    simp [sample_dispatch, h1, h2]
  refine ⟨hd, "UnboundLocalError: local variable referenced before assignment", ?_⟩
  simp [run_sampling, hd]

/-- C6: the pretrained-checkpoint loader keeps exactly the checkpoint keys
that occur in the live model's state dict, every dropped checkpoint key is
logged via `ignored_keys`, the strict `load_state_dict` call never raises
(the updated dict has exactly the model's keys), and every model parameter
whose key is absent from the checkpoint keeps its existing value. -/
theorem pretrained_checkpoint_load (ckpt md : List (String × ℚ)) :
    (∀ kv ∈ pretrained_dict ckpt md, (slookup kv.1 md).isSome = true) ∧
    (∀ kv ∈ ckpt,
      (slookup kv.1 md).isSome = true ∨ kv.1 ∈ ignored_keys ckpt md) ∧
    load_pretrained ckpt md =
      Except.ok (dict_update md (pretrained_dict ckpt md)) ∧
    (∀ k : String, slookup k ckpt = none →
      slookup k (dict_update md (pretrained_dict ckpt md)) = slookup k md) := by
  refine ⟨?_, ?_, ?_, ?_⟩
  · intro kv hkv
    exact (List.mem_filter.mp hkv).2
  · intro kv hkv
    by_cases h : (slookup kv.1 md).isSome = true
    · exact Or.inl h
    · right
      have h2 : (slookup kv.1 md).isSome = false := by
        simpa using h
      refine List.mem_map.mpr ⟨kv, List.mem_filter.mpr ⟨hkv, ?_⟩, rfl⟩
      simp [h2]
  · have hA : ∀ kv ∈ dict_update md (pretrained_dict ckpt md),
        (slookup kv.1 md).isSome = true := by
      intro kv hkv
      rcases List.mem_append.mp hkv with hL | hR
      · rcases List.mem_map.mp hL with ⟨kv0, hkv0, heq⟩
        have hk1 : kv.1 = kv0.1 := by
          rw [← heq]
          cases h : slookup kv0.1 (pretrained_dict ckpt md) <;> simp [h]
        rw [hk1]
        exact slookup_isSome_of_mem (show (kv0.1, kv0.2) ∈ md by simpa using hkv0)
      · have h1 := (List.mem_filter.mp hR).2
        have h2 := (List.mem_filter.mp (List.mem_filter.mp hR).1).2
        rw [h2] at h1
        simp at h1
    have hB : ∀ kv ∈ md,
        (slookup kv.1 (dict_update md (pretrained_dict ckpt md))).isSome
          = true := by
      intro kv hkv
      rw [dict_update_slookup]
      have hm : (slookup kv.1 md).isSome = true :=
        slookup_isSome_of_mem (show (kv.1, kv.2) ∈ md by simpa using hkv)
      rcases Option.isSome_iff_exists.mp hm with ⟨v, hv⟩
      simp [hv]
    have hcond : ((dict_update md (pretrained_dict ckpt md)).all
          (fun kv => (slookup kv.1 md).isSome) &&
        md.all (fun kv =>
          (slookup kv.1 (dict_update md (pretrained_dict ckpt md))).isSome))
          = true := by
      rw [Bool.and_eq_true, List.all_eq_true, List.all_eq_true]
      exact ⟨hA, hB⟩
    unfold load_pretrained load_state_dict
    rw [if_pos hcond]
  · intro k hck
    rw [dict_update_slookup]
    have hpd : slookup k (pretrained_dict ckpt md) = none := by
      rw [pretrained_dict_slookup, hck]
      simp
    cases hm : slookup k md <;> simp [hpd]

/-- Witness for C6: a model key absent from a concrete checkpoint keeps its
value through the load. -/
theorem pretrained_checkpoint_load_witness :
    slookup "bias" (dict_update [("weight", 1), ("bias", 2)]
        (pretrained_dict [("weight", 5), ("extra", 7)]
          [("weight", 1), ("bias", 2)])) =
      slookup "bias" [("weight", 1), ("bias", 2)] :=
  (pretrained_checkpoint_load [("weight", 5), ("extra", 7)]
      [("weight", 1), ("bias", 2)]).2.2.2 "bias" (by rfl)

/-- C8: a checkpoint-save action occurs only on rank 0 and only when
`train_steps` is a positive multiple of `ckpt_every`; the saved dict's key
list is exactly `["ema"]`; a non-rank-0 process never saves; and every save
is immediately followed by a barrier in the block's action sequence. -/
theorem checkpoint_write_discipline (rank train_steps ckpt_every : ℕ)
    (hE : 0 < ckpt_every) :
    (∀ keys, DistAction.save_checkpoint keys ∈
        ckpt_step_actions rank train_steps ckpt_every →
      rank = 0 ∧ (∃ m, 0 < m ∧ train_steps = m * ckpt_every) ∧
        keys = ["ema"]) ∧
    (rank ≠ 0 → ∀ keys, DistAction.save_checkpoint keys ∉
        ckpt_step_actions rank train_steps ckpt_every) ∧
    (∀ i keys,
      (ckpt_step_actions rank train_steps ckpt_every)[i]? =
          some (DistAction.save_checkpoint keys) →
      (ckpt_step_actions rank train_steps ckpt_every)[i + 1]? =
          some DistAction.barrier) := by
  by_cases hc : train_steps % ckpt_every = 0 ∧ 0 < train_steps
  · by_cases hr : rank = 0
    · have hlist : ckpt_step_actions rank train_steps ckpt_every =
          [DistAction.save_checkpoint ["ema"], DistAction.barrier] := by
        unfold ckpt_step_actions
        rw [if_pos hc, if_pos hr]
        rfl
      have hmul : ∃ m, 0 < m ∧ train_steps = m * ckpt_every := by
        obtain ⟨m, hm⟩ := Nat.dvd_of_mod_eq_zero hc.1
        have hm2 : train_steps = m * ckpt_every := by rw [hm, Nat.mul_comm]
        have hpos : 0 < m := by
          rcases Nat.eq_zero_or_pos m with h0 | h0
          · subst h0
            simp at hm2
            exact absurd hm2 (Nat.pos_iff_ne_zero.mp hc.2)
          · exact h0
        exact ⟨m, hpos, hm2⟩
      refine ⟨?_, ?_, ?_⟩
      · intro keys hmem
        rw [hlist] at hmem
        simp at hmem
        exact ⟨hr, hmul, hmem⟩
      · intro hrn
        exact absurd hr hrn
      · intro i keys hi
        rw [hlist] at hi ⊢
        cases i with
        | zero => rfl
        | succ n =>
          cases n with
          | zero => simp at hi
          | succ p => simp at hi
    · have hlist : ckpt_step_actions rank train_steps ckpt_every =
          [DistAction.barrier] := by
        unfold ckpt_step_actions
        rw [if_pos hc, if_neg hr]
        rfl
      refine ⟨?_, ?_, ?_⟩
      · intro keys hmem
        rw [hlist] at hmem
        simp at hmem
      · intro _ keys hmem
        rw [hlist] at hmem
        simp at hmem
      · intro i keys hi
        rw [hlist] at hi
        cases i with
        | zero => simp at hi
        | succ n => simp at hi
  · have hlist : ckpt_step_actions rank train_steps ckpt_every = [] := by
      unfold ckpt_step_actions
      rw [if_neg hc]
    refine ⟨?_, ?_, ?_⟩
    · intro keys hmem
      rw [hlist] at hmem
      simp at hmem
    · intro _ keys hmem
      rw [hlist] at hmem
      simp at hmem
    · intro i keys hi
      rw [hlist] at hi
      simp at hi

/-- Witness for C8 at rank 0, step 50, checkpoint interval 50: the action
right after the save is the barrier. -/
theorem checkpoint_write_discipline_witness :
    (ckpt_step_actions 0 50 50)[0 + 1]? = some DistAction.barrier :=
  (checkpoint_write_discipline 0 50 50 (by decide)).2.2 0 ["ema"] (by decide)

/-- Witness for C10 at the concrete method "euler". -/
theorem unknown_sample_method_fails_witness :
    sample_dispatch "euler" = none ∧
    ∃ e, run_sampling "euler" = Except.error e :=
  unknown_sample_method_fails "euler" (by decide) (by decide)

end EndosCond
